import Mathlib

/-!
Shallow embedding of `main.py` of the TelegramSender repository: a batch job
that scrapes rental listings, classifies furnished status and bedroom count
from free text, filters per occupancy group, deduplicates against a persisted
seen-store, and sends a digest notification per group.

The network, HTML parsing (BeautifulSoup selectors), and the Telegram
transport are external collaborators; they are modelled as already-extracted
inputs (cards, detail pages, page texts) and as recorded outputs (log lines,
sent messages).  Everything from the point the raw text is in hand — the
classifiers, the price parsers, the per-card/px-page listing construction,
the group filter, the dedup engine, the notification selection and the main
loop — is embedded faithfully from the source.

String case folding (`str.lower`) and the regex character classes `\d`, `\w`,
`\s` are modelled at ASCII fidelity, which covers every vocabulary word and
every pattern literal occurring in the source.
-/

-- ===== SETTINGS (main.py lines 11-22) =====

def PERSON_GROUPS : List Nat := [1, 2]

def BASE_BUDGET : Nat := 900

def TOP_RESULTS : Nat := 5

def FURNISHED_YES : List String :=
  ["furnished", "fully furnished", "gemeubileerd", "volledig gemeubileerd"]

def FURNISHED_NO : List String :=
  ["unfurnished", "not furnished", "ongemeubileerd", "kaal", "shell", "gestoffeerd"]

-- ===== DATA MODEL =====

/-- The normalized listing record built by every adapter (the Python dicts
with keys title/price/url/furnished/bedrooms/source).  `price` is `none`
exactly when the Python value would be `None`. -/
structure Listing where
  title : String
  price : Option Nat
  url : String
  furnished : Bool
  bedrooms : Option Nat
  source : String
deriving DecidableEq, Repr

-- ===== UTILITIES (main.py lines 27-47) =====

/-- Python `str.lower`, at ASCII fidelity, acting on the character data. -/
def strLower (s : String) : String := ⟨s.data.map Char.toLower⟩

/-- Matches a leading character sequence: `isPrefList w t` is true iff `w` is
an initial segment of `t`. -/
def isPrefList : List Char → List Char → Bool
  | [], _ => true
  | _ :: _, [] => false
  | a :: as, b :: bs => a == b && isPrefList as bs

/-- Substring occurrence on character lists. -/
def subList : List Char → List Char → Bool
  | w, [] => w.isEmpty
  | w, c :: ts => isPrefList w (c :: ts) || subList w ts

/-- Python's substring test `w in t`, on the character data of the strings. -/
def hasSub (w t : String) : Bool := subList w.data t.data

/-- main.py lines 27-33: negative vocabulary checked first and winning. -/
def is_furnished (text : String) : Bool :=
  let t := strLower text
  if FURNISHED_NO.any (fun w => hasSub w t) then false
  else if FURNISHED_YES.any (fun w => hasSub w t) then true
  else false

/-- Regex `\w` at ASCII fidelity: letters, digits, underscore. -/
def isWordChar (c : Char) : Bool := c.isAlphanum || c == '_'

/-- The `\b` word-boundary test just before a digit: start of string or a
non-word character precedes. -/
def boundaryBefore (prev : Option Char) : Bool :=
  match prev with
  | none => true
  | some c => !isWordChar c

/-- The `\b` word-boundary test just after a word character: end of string or
a non-word character follows. -/
def boundaryAfter (cs : List Char) : Bool :=
  match cs with
  | [] => true
  | c :: _ => !isWordChar c

/-- Match a literal character sequence at the front, returning the rest. -/
def stripLit : List Char → List Char → Option (List Char)
  | [], cs => some cs
  | _ :: _, [] => none
  | l :: ls, c :: cs => if c == l then stripLit ls cs else none

/-- Python `int` on a nonempty string of decimal digits. -/
def digitsVal (ds : List Char) : Nat :=
  ds.foldl (fun n c => 10 * n + (c.toNat - '0'.toNat)) 0

/-- Try the optional-suffix possibilities of an alternative (in the regex
engine's greedy backtracking order) followed by a `\b` check. -/
def tryOpts (r : List Char) : List (List Char) → Bool
  | [] => false
  | o :: os =>
    match stripLit o r with
    | some r2 => if boundaryAfter r2 then true else tryOpts r os
    | none => tryOpts r os

/-- Alternative 1 of the bedroom regex, after `\b(\d+)\s*`: a literal `-`,
then `\s*`, then the literal `bed` (no trailing boundary in the pattern). -/
def tryAlt1 (r : List Char) : Bool :=
  match stripLit ['-'] r with
  | some r1 => (stripLit ['b', 'e', 'd'] (r1.dropWhile (fun c => c.isWhitespace))).isSome
  | none => false

/-- Alternative 2, after `\b(\d+)\s*`: `bed(room)?s?\b`. -/
def tryAlt2 (r : List Char) : Bool :=
  match stripLit ['b', 'e', 'd'] r with
  | some r1 => tryOpts r1 [['r', 'o', 'o', 'm', 's'], ['r', 'o', 'o', 'm'], ['s'], []]
  | none => false

/-- Alternatives 3 and 4, after `\b(\d+)\s*`: a literal stem
(`slaapkamer` or `kamer`) then `s?\b`. -/
def tryStemS (stem : List Char) (r : List Char) : Bool :=
  match stripLit stem r with
  | some r1 => tryOpts r1 [['s'], []]
  | none => false

/-- After the shared prefix `\b(\d+)` has consumed the digit run, try the four
alternatives' tails (each begins with `\s*`, shared here) in pattern order. -/
def altsMatch (rest : List Char) : Bool :=
  let r := rest.dropWhile (fun c => c.isWhitespace)
  tryAlt1 r || tryAlt2 r ||
    tryStemS ['s', 'l', 'a', 'a', 'p', 'k', 'a', 'm', 'e', 'r'] r ||
    tryStemS ['k', 'a', 'm', 'e', 'r'] r

/-- `re.search` of the bedroom-count regex of main.py line 40: leftmost match
wins; every alternative starts with `\b(\d+)`, whose digit run is consumed
greedily (no later token of any alternative can match a digit, so the engine
never gives digits back); the returned number is the captured digit group of
whichever alternative matched, i.e. the full run. -/
def bedSearch : Option Char → List Char → Option Nat
  | _, [] => none
  | prev, c :: cs =>
    if boundaryBefore prev && c.isDigit then
      let ds := (c :: cs).takeWhile (fun d => d.isDigit)
      let rest := (c :: cs).dropWhile (fun d => d.isDigit)
      if altsMatch rest then some (digitsVal ds)
      else bedSearch (some c) cs
    else bedSearch (some c) cs

/-- main.py lines 35-47.  The loop `for g in m.groups()` returns the first
digit-string group, which is exactly the captured count of the matching
alternative (`bedSearch`'s result); the inner `(room)` group never passes
`g.isdigit()`. -/
def infer_bedrooms (title text : String) : Option Nat :=
  let t := strLower (title ++ " " ++ text)
  if hasSub "studio" t then some 0
  else
    match bedSearch none t.data with
    | some n => some n
    | none => if hasSub "room" t || hasSub "kamer" t then some 0 else none

-- ===== SEEN STORE & DEDUP (main.py lines 49-70) =====

/-- The dedup key of main.py line 65: `f"{people}|{it['source']}|{it['url']}"`. -/
def mkKey (people : Nat) (it : Listing) : String :=
  toString people ++ "|" ++ it.source ++ "|" ++ it.url

/-- The loop body of `remove_seen` (main.py lines 63-69), acting on the seen
set loaded at the start of the call: returns the kept items and the mutated
set that `save_seen` then persists.  The on-disk line order of the Python
`set` is unspecified, so the store is modelled as a `Finset`. -/
def remove_seen : List Listing → Nat → Finset String → List Listing × Finset String
  | [], _, seen => ([], seen)
  | it :: rest, people, seen =>
    if mkKey people it ∈ seen then remove_seen rest people seen
    else
      let t := remove_seen rest people (insert (mkKey people it) seen)
      (it :: t.1, t.2)

/-- A process-run state: the persisted store contents together with counters
for the store reads (`load_seen` calls) and writes (`save_seen` calls) and
the transcript of dispatched notifications. -/
structure RunState where
  store : Finset String
  reads : Nat
  writes : Nat
  sent : List String
deriving DecidableEq

/-- main.py lines 49-53: one store read per call. -/
def load_seen (st : RunState) : Finset String × RunState :=
  (st.store, { st with reads := st.reads + 1 })

/-- main.py lines 55-58: one store write per call, overwriting the contents. -/
def save_seen (s : Finset String) (st : RunState) : RunState :=
  { st with store := s, writes := st.writes + 1 }

/-- main.py lines 60-70 as called by `main`: `load_seen()`, the dedup loop,
`save_seen(seen)`. -/
def remove_seenRun (listings : List Listing) (people : Nat) (st : RunState) :
    List Listing × RunState :=
  let loaded := load_seen st
  let res := remove_seen listings people loaded.1
  (res.1, save_seen res.2 loaded.2)

-- ===== PRICE PARSERS (main.py lines 102-105 and 126-138) =====

/-- The character class `[\d\.\,]` of the regex on main.py line 127. -/
def priceClassChar (c : Char) : Bool := c.isDigit || c == '.' || c == ','

/-- Python `"".join(c for c in s if c.isdigit())` (main.py line 102). -/
def keepDigits (cs : List Char) : List Char := cs.filter (fun c => c.isDigit)

/-- Python `s.replace(".", "").replace(",", "")`. -/
def stripSeps (cs : List Char) : List Char := cs.filter (fun c => !(c == '.' || c == ','))

/-- The search for the first-stage regex `€\s*([\d\.\,]+)` (main.py line
127): at each `€`, skip whitespace greedily (no class character is
whitespace, so the engine never backtracks over `\s*`) and capture the
nonempty run of class characters; if the run is empty the attempt at this
`€` fails and the scan continues to the right. -/
def euroSearch : List Char → Option (List Char)
  | [] => none
  | c :: cs =>
    if c == '€' then
      let r := cs.dropWhile (fun d => d.isWhitespace)
      let ds := r.takeWhile priceClassChar
      if ds.isEmpty then euroSearch cs else some ds
    else euroSearch cs

/-- The search for the fallback regex `\b(\d{3,4})\b` (main.py line 130): a
maximal digit run matches iff its length is exactly 3 or 4 and it is flanked
by word boundaries (a 5-digit run matches neither with 4 digits taken, since
a digit follows, nor after backtracking to 3, nor at any later start inside
the run, where the preceding digit breaks `\b`). -/
def fallbackSearch : Option Char → List Char → Option Nat
  | _, [] => none
  | prev, c :: cs =>
    if boundaryBefore prev && c.isDigit then
      let ds := (c :: cs).takeWhile (fun d => d.isDigit)
      let rest := (c :: cs).dropWhile (fun d => d.isDigit)
      if (ds.length == 3 || ds.length == 4) && boundaryAfter rest then some (digitsVal ds)
      else fallbackSearch (some c) cs
    else fallbackSearch (some c) cs

/-- main.py lines 126-138, `_parse_price_from_text`.  In the first stage the
captured group consists of digits, dots and commas; after the separators are
removed `int(val)` succeeds iff at least one digit remains (otherwise the
`ValueError` branch returns `None`). -/
def parse_price_from_text (txt : String) : Option Nat :=
  match euroSearch txt.data with
  | none => fallbackSearch none (stripSeps txt.data)
  | some grp =>
    let val := stripSeps grp
    if val.isEmpty then none else some (digitsVal val)

-- ===== SOURCE ADAPTERS (main.py lines 87-236) =====

/-- One structured card of the Pararius list page, as handed over by the
external HTML layer: the optional title element text, the optional price
element text, the optional `href` of the title link, and the card's full
text (`card.get_text(" ", strip=True)`). -/
structure PCard where
  titleEl : Option String
  priceEl : Option String
  href : Option String
  text : String
deriving DecidableEq

/-- The body of the Pararius card loop (main.py lines 95-123).  `join` models
`urljoin(url, rel)` of the external URL library.  Each `continue` becomes a
`none`: missing title or price element, a price field with no digits, or a
falsy `href` — `if not rel or isinstance(rel, list): continue` drops both a
missing attribute (`none` here) and an empty string, which is falsy in
Python; the list-valued-attribute arm is covered by `href : Option String`
holding only scalar attribute values. -/
def parsePCard (join : String → String) (c : PCard) : Option Listing :=
  match c.titleEl, c.priceEl with
  | some title, some priceTxt =>
    let digits := keepDigits priceTxt.data
    if digits.isEmpty then none
    else
      match c.href with
      | none => none
      | some rel =>
        if rel = "" then none
        else
          some { title := title
                 price := some (digitsVal digits)
                 url := join rel
                 furnished := is_furnished c.text
                 bedrooms := infer_bedrooms title c.text
                 source := "Pararius" }
  | _, _ => none

/-- main.py lines 87-124: the Pararius list-page adapter over the extracted
cards. -/
def fetch_pararius_listings (join : String → String) (cards : List PCard) : List Listing :=
  cards.filterMap (parsePCard join)

/-- A fetched detail page, as handed over by the external HTML layer: the
text of the first `h1`/`h2` element if any, and the page's full text. -/
structure Page where
  titleEl : Option String
  text : String
deriving DecidableEq

/-- Python `x or 10**9` on the parsed price (main.py lines 168 and 220):
both `None` and `0` are falsy and are replaced by the sentinel. -/
def pyOrSentinel (o : Option Nat) : Nat :=
  match o with
  | none => 10 ^ 9
  | some n => if n == 0 then 10 ^ 9 else n

/-- One successfully fetched detail page turned into a Listing (main.py
lines 163-179 and 215-231). -/
def buildDetailListing (src dflt url : String) (pg : Page) : Listing :=
  let title := pg.titleEl.getD dflt
  { title := title
    price := some (pyOrSentinel (parse_price_from_text pg.text))
    url := url
    furnished := is_furnished pg.text
    bedrooms := infer_bedrooms title pg.text
    source := src }

/-- The detail-page loop shared by the Funda and Huurwoningen adapters
(main.py lines 157-182 and 209-234): each detail URL's fetch/parse outcome is
either a page or an exception; an exception is logged with a Skip line and
the candidate dropped, and the loop continues. -/
def fetchDetails (src dflt : String) :
    List (String × Except String Page) → List Listing × List String
  | [] => ([], [])
  | (u, r) :: rest =>
    match r with
    | .ok pg =>
      let t := fetchDetails src dflt rest
      (buildDetailListing src dflt u pg :: t.1, t.2)
    | .error e =>
      let t := fetchDetails src dflt rest
      (t.1, ("[" ++ src ++ "] Skip " ++ u ++ ": " ++ e) :: t.2)

/-- main.py lines 140-184: the Funda adapter from the point the candidate
detail URLs are extracted; `links[:20]` caps the loop. -/
def fetch_funda_listings (pages : List (String × Except String Page)) :
    List Listing × List String :=
  fetchDetails "Funda" "Funda listing" (pages.take 20)

/-- main.py lines 186-236: the Huurwoningen adapter; its list-page fetch is
guarded by its own try/except that logs and returns an empty list. -/
def fetch_huurwoningen_listings
    (listPage : Except String (List (String × Except String Page))) :
    List Listing × List String :=
  match listPage with
  | .error e => ([], ["Huurwoningen list error: " ++ e])
  | .ok pages => fetchDetails "Huurwoningen" "Huurwoningen listing" (pages.take 20)

/-- One arm of `fetch_all_listings`: the adapter call's outcome (its result,
or the exception that escaped it) together with the error-print prefix of its
`except` clause. -/
def okD (r : Except String (List Listing × List String)) (errMsg : String) :
    List Listing × List String :=
  match r with
  | .ok res => res
  | .error e => ([], [errMsg ++ e])

/-- main.py lines 238-252: the aggregator; each source's contribution is
appended under its own try/except, so a source that raises contributes
nothing but a warning line. -/
def fetch_all_listings (p f h : Except String (List Listing × List String)) :
    List Listing × List String :=
  let rp := okD p "Pararius error: "
  let rf := okD f "Funda error: "
  let rh := okD h "Huurwoningen error: "
  (rp.1 ++ rf.1 ++ rh.1, rp.2 ++ rf.2 ++ rh.2)

-- ===== FILTERING & NOTIFY (main.py lines 257-290) =====

/-- The admission test of the loop body of `filter_for_people` (main.py lines
260-274), with each `continue` made explicit. -/
def admits (people : Nat) (it : Listing) : Bool :=
  match it.price with
  | none => false
  | some pr =>
    if BASE_BUDGET * people < pr then false
    else if !it.furnished then false
    else if people == 1 then
      match it.bedrooms with
      | some b => decide (b ≤ 1)
      | none => true
    else
      match it.bedrooms with
      | some b => decide (2 ≤ b)
      | none => true

/-- The sort key of main.py line 276 (`key=lambda x: x["price"]`); every
admitted listing has a known price, so the default is never consulted. -/
def priceKey (it : Listing) : Nat := it.price.getD 0

/-- The Bool comparison `list.sort` orders by; Python's sort is stable, as is
`List.mergeSort`. -/
def priceLe (a b : Listing) : Bool := decide (priceKey a ≤ priceKey b)

/-- main.py lines 257-277. -/
def filter_for_people (listings : List Listing) (people : Nat) : List Listing :=
  (listings.filter (admits people)).mergeSort priceLe

/-- The bedroom descriptor of main.py line 288. -/
def btxt (b : Option Nat) : String :=
  match b with
  | some 0 => "studio"
  | some n => toString n ++ " bedrooms"
  | none => "bedrooms?"

/-- Rendering of the price field inside the digest line. -/
def priceStr (p : Option Nat) : String :=
  match p with
  | some n => toString n
  | none => "None"

/-- One digest line (main.py line 289). -/
def lineFor (it : Listing) : String :=
  "[" ++ it.source ++ "] " ++ it.title ++ " — €" ++ priceStr it.price ++
    " — " ++ btxt it.bedrooms ++ "\n" ++ it.url ++ "\n"

/-- The listings actually rendered into a group's digest:
`matches[:TOP_RESULTS]` (main.py line 286). -/
def notifiedItems (ms : List Listing) : List Listing :=
  ms.take TOP_RESULTS

/-- main.py lines 72-82: the transport call, recorded in the run state (the
HTTP post and the missing-credentials diagnostic are external). -/
def send_message (msg : String) (st : RunState) : RunState :=
  { st with sent := st.sent ++ [msg] }

/-- main.py lines 279-290. -/
def notify_group (ms : List Listing) (people : Nat) (st : RunState) : RunState :=
  if ms.isEmpty then
    send_message ("ℹ️ No new listings today for " ++ toString people ++ " person(s).") st
  else
    send_message
      (String.intercalate "\n"
        (("🏠 Matches for " ++ toString people ++ " person(s) — Max budget €" ++
            toString (BASE_BUDGET * people) ++ "\n") ::
          (notifiedItems ms).map lineFor)) st

-- ===== MAIN (main.py lines 295-300) =====

/-- The loop body of `main` (main.py lines 297-300): for one occupancy
group, filter, dedup (one store read and one store write inside
`remove_seen`), notify. -/
def runGroup (listings : List Listing) (st : RunState) (people : Nat) : RunState :=
  let filtered := filter_for_people listings people
  let res := remove_seenRun filtered people st
  notify_group res.1 people res.2

/-- main.py lines 295-300, from the point the aggregated listings are in
hand: the per-group loop over `PERSON_GROUPS`. -/
def mainRun (listings : List Listing) (st : RunState) : RunState :=
  PERSON_GROUPS.foldl (runGroup listings) st

-- ===== THEOREMS =====

/-- C4: `is_furnished` lower-cases its input and returns `false` whenever a
negative-furnished phrase occurs as a substring, regardless of co-occurring
positive phrases; otherwise it returns `true` whenever a positive-furnished
phrase occurs as a substring; otherwise it returns `false`. -/
theorem is_furnished_spec (text : String) :
    ((∃ w ∈ FURNISHED_NO, hasSub w (strLower text) = true) → is_furnished text = false) ∧
    ((¬ ∃ w ∈ FURNISHED_NO, hasSub w (strLower text) = true) →
      ((∃ w ∈ FURNISHED_YES, hasSub w (strLower text) = true) → is_furnished text = true) ∧
      ((¬ ∃ w ∈ FURNISHED_YES, hasSub w (strLower text) = true) → is_furnished text = false)) := by
  unfold is_furnished
  constructor
  · intro h
    have hno : FURNISHED_NO.any (fun w => hasSub w (strLower text)) = true := by
      rw [List.any_eq_true]; simpa using h
    simp [hno]
  · intro h
    have hno : FURNISHED_NO.any (fun w => hasSub w (strLower text)) = false := by
      rw [Bool.eq_false_iff]
      intro hc
      exact h (by simpa using List.any_eq_true.mp hc)
    constructor
    · intro h2
      have hyes : FURNISHED_YES.any (fun w => hasSub w (strLower text)) = true := by
        rw [List.any_eq_true]; simpa using h2
      simp [hno, hyes]
    · intro h2
      have hyes : FURNISHED_YES.any (fun w => hasSub w (strLower text)) = false := by
        rw [Bool.eq_false_iff]
        intro hc
        exact h2 (by simpa using List.any_eq_true.mp hc)
      simp [hno, hyes]

/-- Witness for C4: the three vocabulary cases at concrete inputs, through
`is_furnished_spec`. -/
theorem is_furnished_spec_witness :
    is_furnished "unfurnished but furnished photos available" = false ∧
    is_furnished "fully furnished flat" = true ∧
    is_furnished "nice flat" = false :=
  ⟨(is_furnished_spec "unfurnished but furnished photos available").1
      ⟨"unfurnished", by decide, by decide⟩,
   ((is_furnished_spec "fully furnished flat").2 (by decide)).1
      ⟨"furnished", by decide, by decide⟩,
   ((is_furnished_spec "nice flat").2 (by decide)).2 (by decide)⟩

/-- C5: `infer_bedrooms` on the lower-cased concatenation returns `0` on a
"studio" occurrence; otherwise the count of the first match of the
`N-bed / N bed(room)s / N slaapkamers / N kamers` patterns; otherwise `0` on
a bare "room"/"kamer" occurrence; otherwise `none` — and the spec's concrete
examples hold. -/
theorem infer_bedrooms_spec (title text : String) :
    (hasSub "studio" (strLower (title ++ " " ++ text)) = true →
      infer_bedrooms title text = some 0) ∧
    (hasSub "studio" (strLower (title ++ " " ++ text)) = false →
      ∀ n, bedSearch none (strLower (title ++ " " ++ text)).data = some n →
        infer_bedrooms title text = some n) ∧
    (hasSub "studio" (strLower (title ++ " " ++ text)) = false →
      bedSearch none (strLower (title ++ " " ++ text)).data = none →
      (hasSub "room" (strLower (title ++ " " ++ text)) ||
        hasSub "kamer" (strLower (title ++ " " ++ text))) = true →
      infer_bedrooms title text = some 0) ∧
    (hasSub "studio" (strLower (title ++ " " ++ text)) = false →
      bedSearch none (strLower (title ++ " " ++ text)).data = none →
      hasSub "room" (strLower (title ++ " " ++ text)) = false →
      hasSub "kamer" (strLower (title ++ " " ++ text)) = false →
      infer_bedrooms title text = none) ∧
    (infer_bedrooms "Studio apartment" "" = some 0 ∧
      infer_bedrooms "3-bed house" "" = some 3 ∧
      infer_bedrooms "3 bedrooms" "" = some 3 ∧
      infer_bedrooms "3 slaapkamers" "" = some 3 ∧
      infer_bedrooms "cozy room in center" "" = some 0 ∧
      infer_bedrooms "lovely apartment" "" = none) := by
  refine ⟨?_, ?_, ?_, ?_, by decide, by decide, by decide, by decide, by decide, by decide⟩
  · intro h
    simp [infer_bedrooms, h]
  · intro h n hn
    simp [infer_bedrooms, h, hn]
  · intro h hs hr
    simp [infer_bedrooms, h, hs, hr]
  · intro h hs hr hk
    simp [infer_bedrooms, h, hs, hr, hk]

/-- Witness for C5: a further concrete input routed through each hypothesis
of `infer_bedrooms_spec`. -/
theorem infer_bedrooms_spec_witness :
    infer_bedrooms "4 kamers" "" = some 4 ∧
    infer_bedrooms "ruime kamer" "" = some 0 :=
  ⟨(infer_bedrooms_spec "4 kamers" "").2.1 (by decide) 4 (by decide),
   (infer_bedrooms_spec "ruime kamer" "").2.2.1 (by decide) (by decide) (by decide)⟩

/-- Every item kept by the dedup loop comes from the input and its key was
absent from the initially loaded seen set. -/
theorem remove_seen_kept_mem (l : List Listing) (p : Nat) :
    ∀ (s : Finset String) (x : Listing),
      x ∈ (remove_seen l p s).1 → x ∈ l ∧ mkKey p x ∉ s := by
  induction l with
  | nil => intro s x hx; simp [remove_seen] at hx
  | cons it rest ih =>
    intro s x hx
    by_cases h : mkKey p it ∈ s
    · simp only [remove_seen, if_pos h] at hx
      obtain ⟨h1, h2⟩ := ih s x hx
      exact ⟨List.mem_cons_of_mem _ h1, h2⟩
    · simp only [remove_seen, if_neg h] at hx
      rcases List.mem_cons.mp hx with rfl | hx'
      · exact ⟨List.mem_cons_self _ _, h⟩
      · obtain ⟨h1, h2⟩ := ih _ x hx'
        exact ⟨List.mem_cons_of_mem _ h1,
          fun hs => h2 (Finset.mem_insert_of_mem hs)⟩

/-- The saved seen set is the loaded one plus the key of every processed
item (a dropped item's key was already present). -/
theorem remove_seen_saved_store (l : List Listing) (p : Nat) :
    ∀ s : Finset String,
      (remove_seen l p s).2 = s ∪ (l.map (mkKey p)).toFinset := by
  induction l with
  | nil => intro s; simp [remove_seen]
  | cons it rest ih =>
    intro s
    by_cases h : mkKey p it ∈ s
    · simp only [remove_seen, if_pos h]
      rw [ih s]
      ext a
      by_cases ha : a = mkKey p it <;> simp [ha, h]
    · simp only [remove_seen, if_neg h]
      rw [ih _]
      ext a
      by_cases ha : a = mkKey p it <;> simp [ha] <;> tauto

/-- The kept items have pairwise-distinct keys: within one call, a second
occurrence of a key is dropped. -/
theorem remove_seen_keys_nodup (l : List Listing) (p : Nat) :
    ∀ s : Finset String, ((remove_seen l p s).1.map (mkKey p)).Nodup := by
  induction l with
  | nil => intro s; simp [remove_seen]
  | cons it rest ih =>
    intro s
    by_cases h : mkKey p it ∈ s
    · simp only [remove_seen, if_pos h]
      exact ih s
    · simp only [remove_seen, if_neg h]
      rw [List.map_cons, List.nodup_cons]
      refine ⟨?_, ih _⟩
      rw [List.mem_map]
      rintro ⟨x, hx, hkey⟩
      exact (remove_seen_kept_mem rest p _ x hx).2 (hkey ▸ Finset.mem_insert_self _ _)

/-- When the input's keys are pairwise distinct, the dedup loop is exactly a
filter against the loaded seen set. -/
theorem remove_seen_eq_filter (l : List Listing) (p : Nat) :
    ∀ s : Finset String, (l.map (mkKey p)).Nodup →
      (remove_seen l p s).1 = l.filter (fun it => decide (mkKey p it ∉ s)) := by
  induction l with
  | nil => intro s _; simp [remove_seen]
  | cons it rest ih =>
    intro s hnd
    rw [List.map_cons, List.nodup_cons] at hnd
    obtain ⟨hkey, hnd'⟩ := hnd
    by_cases h : mkKey p it ∈ s
    · simp only [remove_seen, if_pos h]
      rw [List.filter_cons_of_neg (by simpa using h)]
      exact ih s hnd'
    · simp only [remove_seen, if_neg h]
      rw [List.filter_cons_of_pos (by simpa using h)]
      rw [ih _ hnd']
      congr 1
      apply List.filter_congr
      intro x hx
      have hne : mkKey p x ≠ mkKey p it := fun he =>
        hkey (he ▸ List.mem_map_of_mem (mkKey p) hx)
      by_cases hxs : mkKey p x ∈ s <;> simp [hxs, hne]

/-- The dedup scenario item of the spec: url "a", source "X". -/
def itemA : Listing :=
  { title := "", price := some 700, url := "a", furnished := true,
    bedrooms := none, source := "X" }

/-- C2: the Dedup Engine keys each group-filtered Listing as
`group | source | url`; a Listing whose key is in the seen set is dropped, an
absent one is kept and its key inserted — and the spec's two-run scenario
holds: the same single item for group 1 is delivered on the first run and
suppressed on the second, while group 2's own first run still admits it. -/
theorem remove_seen_spec :
    (∀ (p : Nat) (l : List Listing) (s : Finset String),
      (∀ x ∈ (remove_seen l p s).1, x ∈ l ∧ mkKey p x ∉ s) ∧
      ((remove_seen l p s).1.map (mkKey p)).Nodup ∧
      (remove_seen l p s).2 = s ∪ (l.map (mkKey p)).toFinset ∧
      ((l.map (mkKey p)).Nodup →
        (remove_seen l p s).1 = l.filter (fun it => decide (mkKey p it ∉ s)))) ∧
    (remove_seen [itemA] 1 ∅ = ([itemA], {"1|X|a"}) ∧
      remove_seen [itemA] 1 (remove_seen [itemA] 1 ∅).2 = ([], {"1|X|a"}) ∧
      (remove_seen [itemA] 2 (remove_seen [itemA] 1 ∅).2).1 = [itemA]) :=
  ⟨fun p l s =>
    ⟨remove_seen_kept_mem l p s, remove_seen_keys_nodup l p s,
      remove_seen_saved_store l p s, remove_seen_eq_filter l p s⟩,
   by decide, by decide, by decide⟩

/-- Witness for C2: the nodup-keys hypothesis discharged at a concrete
two-item input through `remove_seen_spec`. -/
theorem remove_seen_spec_witness :
    (remove_seen [itemA] 1 {"1|X|a"}).1 =
      [itemA].filter (fun it => decide (mkKey 1 it ∉ ({"1|X|a"} : Finset String))) :=
  (remove_seen_spec.1 1 [itemA] {"1|X|a"}).2.2.2 (by decide)

/-- The dedup call inside one group's processing performs exactly one store
read and one store write. -/
theorem remove_seenRun_counters (l : List Listing) (p : Nat) (st : RunState) :
    ((remove_seenRun l p st).2).reads = st.reads + 1 ∧
    ((remove_seenRun l p st).2).writes = st.writes + 1 :=
  ⟨rfl, rfl⟩

/-- Notification does not touch the seen-store. -/
theorem notify_group_counters (ms : List Listing) (p : Nat) (st : RunState) :
    (notify_group ms p st).reads = st.reads ∧ (notify_group ms p st).writes = st.writes := by
  unfold notify_group send_message
  split <;> exact ⟨rfl, rfl⟩

/-- One group's processing performs exactly one store read and one write. -/
theorem runGroup_counters (listings : List Listing) (st : RunState) (p : Nat) :
    (runGroup listings st p).reads = st.reads + 1 ∧
    (runGroup listings st p).writes = st.writes + 1 := by
  unfold runGroup
  refine ⟨?_, ?_⟩
  · rw [(notify_group_counters _ _ _).1, (remove_seenRun_counters _ _ _).1]
  · rw [(notify_group_counters _ _ _).2, (remove_seenRun_counters _ _ _).2]

/-- Folding the per-group step over any group list adds one read and one
write per group. -/
theorem foldl_runGroup_counters (gs : List Nat) :
    ∀ (listings : List Listing) (st : RunState),
      ((gs.foldl (runGroup listings) st).reads = st.reads + gs.length ∧
       (gs.foldl (runGroup listings) st).writes = st.writes + gs.length) := by
  induction gs with
  | nil => intro listings st; simp
  | cons g gs ih =>
    intro listings st
    rw [List.foldl_cons, List.length_cons]
    obtain ⟨hr, hw⟩ := ih listings (runGroup listings st g)
    rw [hr, hw, (runGroup_counters listings st g).1, (runGroup_counters listings st g).2]
    omega

/-- Counterexample to C3: with the configured two occupancy groups, a run
reads the seen-store twice and writes it twice — not exactly once. -/
theorem seen_store_once_counterexample :
    (mainRun [] { store := ∅, reads := 0, writes := 0, sent := [] }).reads = 2 ∧
    (mainRun [] { store := ∅, reads := 0, writes := 0, sent := [] }).writes = 2 ∧
    ¬((mainRun [] { store := ∅, reads := 0, writes := 0, sent := [] }).reads = 1 ∧
      (mainRun [] { store := ∅, reads := 0, writes := 0, sent := [] }).writes = 1) := by
  obtain ⟨hr, hw⟩ :=
    foldl_runGroup_counters PERSON_GROUPS [] { store := ∅, reads := 0, writes := 0, sent := [] }
  unfold mainRun
  rw [hr, hw]
  refine ⟨rfl, rfl, ?_⟩
  rintro ⟨h, -⟩
  simp [PERSON_GROUPS] at h

/-- C3 (amended): in every process run the seen-store is read exactly once
and written exactly once per occupancy group evaluated — `remove_seen` loads
and saves on each call, and `main` calls it once per entry of
`PERSON_GROUPS`, so the configured run reads twice and writes twice. -/
theorem seen_store_per_group (listings : List Listing) (st : RunState) :
    (mainRun listings st).reads = st.reads + PERSON_GROUPS.length ∧
    (mainRun listings st).writes = st.writes + PERSON_GROUPS.length ∧
    PERSON_GROUPS.length = 2 := by
  obtain ⟨hr, hw⟩ := foldl_runGroup_counters PERSON_GROUPS listings st
  exact ⟨hr, hw, rfl⟩

/-- C6: in the detail-page adapters, when both price-extraction stages fail
on a page's text, the Listing's price becomes the effectively-infinite
sentinel `10^9`, and for every configured occupancy group the budget filter
rejects the Listing. -/
theorem sentinel_on_parse_failure (src dflt u : String) (pg : Page)
    (h : parse_price_from_text pg.text = none) :
    (buildDetailListing src dflt u pg).price = some (10 ^ 9) ∧
    ∀ p ∈ PERSON_GROUPS, admits p (buildDetailListing src dflt u pg) = false := by
  have hp : (buildDetailListing src dflt u pg).price = some (10 ^ 9) := by
    simp [buildDetailListing, pyOrSentinel, h]
  refine ⟨hp, ?_⟩
  intro p hmem
  have hp2 : p = 1 ∨ p = 2 := by simpa [PERSON_GROUPS] using hmem
  unfold admits
  rw [hp]
  rcases hp2 with rfl | rfl <;> norm_num [BASE_BUDGET]

/-- Witness for C6: a page whose text defeats both the currency-marked stage
and the 3-4 digit fallback, through `sentinel_on_parse_failure`. -/
theorem sentinel_on_parse_failure_witness :
    (buildDetailListing "Funda" "Funda listing" "u" { titleEl := none, text := "no price listed" }).price
        = some (10 ^ 9) ∧
    admits 1 (buildDetailListing "Funda" "Funda listing" "u"
        { titleEl := none, text := "no price listed" }) = false ∧
    admits 2 (buildDetailListing "Funda" "Funda listing" "u"
        { titleEl := none, text := "no price listed" }) = false :=
  ⟨(sentinel_on_parse_failure "Funda" "Funda listing" "u" _ (by decide)).1,
   (sentinel_on_parse_failure "Funda" "Funda listing" "u" _ (by decide)).2 1 (by decide),
   (sentinel_on_parse_failure "Funda" "Funda listing" "u" _ (by decide)).2 2 (by decide)⟩

/-- C10: a detail page whose text parses to a price of exactly `0` is also
given the sentinel `10^9` — Python's `or` treats the `0` result like a
failure — so the budget filter rejects it for every configured group. -/
theorem sentinel_on_zero_price (src dflt u : String) (pg : Page)
    (h : parse_price_from_text pg.text = some 0) :
    (buildDetailListing src dflt u pg).price = some (10 ^ 9) ∧
    ∀ p ∈ PERSON_GROUPS, admits p (buildDetailListing src dflt u pg) = false := by
  have hp : (buildDetailListing src dflt u pg).price = some (10 ^ 9) := by
    simp [buildDetailListing, pyOrSentinel, h]
  refine ⟨hp, ?_⟩
  intro p hmem
  have hp2 : p = 1 ∨ p = 2 := by simpa [PERSON_GROUPS] using hmem
  unfold admits
  rw [hp]
  rcases hp2 with rfl | rfl <;> norm_num [BASE_BUDGET]

/-- Witness for C10: the page text `"€ 0"` parses to `some 0` and is still
priced at the sentinel, through `sentinel_on_zero_price`. -/
theorem sentinel_on_zero_price_witness :
    parse_price_from_text "€ 0" = some 0 ∧
    (buildDetailListing "Huurwoningen" "Huurwoningen listing" "u"
        { titleEl := none, text := "€ 0" }).price = some (10 ^ 9) ∧
    admits 2 (buildDetailListing "Huurwoningen" "Huurwoningen listing" "u"
        { titleEl := none, text := "€ 0" }) = false :=
  ⟨by decide,
   (sentinel_on_zero_price "Huurwoningen" "Huurwoningen listing" "u" _ (by decide)).1,
   (sentinel_on_zero_price "Huurwoningen" "Huurwoningen listing" "u" _ (by decide)).2 2 (by decide)⟩

/-- C7: in the list-page adapter the price is the integer formed by the
digits of the price field, and a candidate whose price field has no digit is
dropped from the output entirely (a falsy href also drops the candidate, as
on main.py line 108). -/
theorem pararius_price_spec (join : String → String) :
    (∀ (c : PCard) (t pt : String), c.titleEl = some t → c.priceEl = some pt →
      ((keepDigits pt.data = [] →
          parsePCard join c = none ∧
          ∀ pre post, fetch_pararius_listings join (pre ++ c :: post) =
            fetch_pararius_listings join pre ++ fetch_pararius_listings join post) ∧
       (c.href = some "" → parsePCard join c = none) ∧
       (keepDigits pt.data ≠ [] → ∀ r, c.href = some r → r ≠ "" →
          parsePCard join c = some
            { title := t
              price := some (digitsVal (keepDigits pt.data))
              url := join r
              furnished := is_furnished c.text
              bedrooms := infer_bedrooms t c.text
              source := "Pararius" }))) ∧
    digitsVal (keepDigits "€ 1.250".data) = 1250 := by
  refine ⟨?_, by decide⟩
  intro c t pt ht hpt
  refine ⟨?_, ?_, ?_⟩
  · intro hd
    have hnone : parsePCard join c = none := by
      simp [parsePCard, ht, hpt, hd]
    refine ⟨hnone, ?_⟩
    intro pre post
    unfold fetch_pararius_listings
    rw [List.filterMap_append, List.filterMap_cons, hnone]
  · intro h0
    by_cases hd : keepDigits pt.data = [] <;>
      simp [parsePCard, ht, hpt, h0, List.isEmpty_iff, hd]
  · intro hd r hr hre
    simp [parsePCard, ht, hpt, hr, List.isEmpty_iff, hd, hre]

/-- Witness for C7: a digitless price field is dropped, an empty (falsy)
href is dropped, and `"€ 1.250"` parses to 1250, through
`pararius_price_spec`. -/
theorem pararius_price_spec_witness :
    parsePCard id
      { titleEl := some "T"
        priceEl := some "price on request"
        href := some "r"
        text := "" } = none ∧
    parsePCard id
      { titleEl := some "T"
        priceEl := some "€ 1.250"
        href := some ""
        text := "" } = none ∧
    parsePCard id
      { titleEl := some "T"
        priceEl := some "€ 1.250"
        href := some "r"
        text := "" } = some
      { title := "T"
        price := some (digitsVal (keepDigits "€ 1.250".data))
        url := "r"
        furnished := is_furnished ""
        bedrooms := infer_bedrooms "T" ""
        source := "Pararius" } ∧
    digitsVal (keepDigits "€ 1.250".data) = 1250 :=
  ⟨(((pararius_price_spec id).1 _ "T" "price on request" rfl rfl).1 (by decide)).1,
   ((pararius_price_spec id).1 _ "T" "€ 1.250" rfl rfl).2.1 rfl,
   ((pararius_price_spec id).1 _ "T" "€ 1.250" rfl rfl).2.2 (by decide) "r" rfl (by decide),
   (pararius_price_spec id).2⟩

/-- Appending detail-page inputs appends both the produced listings and the
log lines. -/
theorem fetchDetails_append (src dflt : String) :
    ∀ l1 l2 : List (String × Except String Page),
      fetchDetails src dflt (l1 ++ l2) =
        ((fetchDetails src dflt l1).1 ++ (fetchDetails src dflt l2).1,
         (fetchDetails src dflt l1).2 ++ (fetchDetails src dflt l2).2) := by
  intro l1
  induction l1 with
  | nil => intro l2; simp [fetchDetails]
  | cons x rest ih =>
    intro l2
    obtain ⟨u, r⟩ := x
    cases r <;> simp [fetchDetails, ih l2]

/-- C8: a failing detail page is logged and skipped while the rest of the
adapter's candidates are still produced, and a source failing at list-page
level contributes an empty sequence plus a warning while the other sources'
listings are still returned. -/
theorem failure_isolation :
    (∀ (src dflt : String) (pre post : List (String × Except String Page)) (u e : String),
      (fetchDetails src dflt (pre ++ (u, Except.error e) :: post)).1 =
        (fetchDetails src dflt pre).1 ++ (fetchDetails src dflt post).1 ∧
      ("[" ++ src ++ "] Skip " ++ u ++ ": " ++ e) ∈
        (fetchDetails src dflt (pre ++ (u, Except.error e) :: post)).2) ∧
    (∀ (f h : Except String (List Listing × List String)) (e : String),
      (fetch_all_listings (Except.error e) f h).1 =
        (okD f "Funda error: ").1 ++ (okD h "Huurwoningen error: ").1 ∧
      ("Pararius error: " ++ e) ∈ (fetch_all_listings (Except.error e) f h).2) ∧
    (∀ (p h : Except String (List Listing × List String)) (e : String),
      (fetch_all_listings p (Except.error e) h).1 =
        (okD p "Pararius error: ").1 ++ (okD h "Huurwoningen error: ").1 ∧
      ("Funda error: " ++ e) ∈ (fetch_all_listings p (Except.error e) h).2) ∧
    (∀ e : String,
      fetch_huurwoningen_listings (Except.error e) =
        ([], ["Huurwoningen list error: " ++ e])) := by
  refine ⟨?_, ?_, ?_, fun e => rfl⟩
  · intro src dflt pre post u e
    rw [fetchDetails_append src dflt pre ((u, Except.error e) :: post)]
    constructor
    · simp [fetchDetails]
    · simp [fetchDetails]
  · intro f h e
    exact ⟨rfl, by simp [fetch_all_listings, okD]⟩
  · intro p h e
    refine ⟨?_, by simp [fetch_all_listings, okD]⟩
    simp [fetch_all_listings, okD]

/-- The admission test, spelled as the spec's admission rule, for occupancy
groups of size at least 1. -/
theorem admits_iff (p : Nat) (hp : 1 ≤ p) (it : Listing) :
    admits p it = true ↔
      ((∃ pr, it.price = some pr ∧ pr ≤ BASE_BUDGET * p) ∧
       it.furnished = true ∧
       (p = 1 → ∀ b, it.bedrooms = some b → b ≤ 1) ∧
       (2 ≤ p → ∀ b, it.bedrooms = some b → 2 ≤ b)) := by
  rcases (by omega : p = 1 ∨ 2 ≤ p) with rfl | hp2
  · cases hf : it.furnished <;>
      rcases hpr : it.price with _ | pr <;>
      rcases hb : it.bedrooms with _ | b <;>
      simp [admits, hpr, hb, hf] <;>
      (try split_ifs) <;>
      (try simp_all) <;>
      omega
  · have hne : (p == 1) = false := by
      simp only [beq_eq_false_iff_ne, ne_eq]
      omega
    cases hf : it.furnished <;>
      rcases hpr : it.price with _ | pr <;>
      rcases hb : it.bedrooms with _ | b <;>
      simp [admits, hpr, hb, hf, hne] <;>
      (try split_ifs) <;>
      (try simp_all) <;>
      omega

/-- The comparison the Group Filter sorts by is transitive. -/
theorem priceLe_trans (a b c : Listing) :
    priceLe a b → priceLe b c → priceLe a c := by
  simp only [priceLe, decide_eq_true_eq]
  omega

/-- The comparison the Group Filter sorts by is total. -/
theorem priceLe_total (a b : Listing) : priceLe a b || priceLe b a := by
  simp only [priceLe, Bool.or_eq_true, decide_eq_true_eq]
  omega

/-- C1: the Group Filter admits a Listing iff its price is known and at most
`BASE_BUDGET × p` (boundary included), it is furnished, and the bedroom rule
holds (`p = 1`: reject only known bedrooms `> 1`; `p ≥ 2`: reject only known
bedrooms `< 2`; unknown bedrooms never reject); the result is sorted
ascending by price, and ties keep the input order (for each price value the
sorted output's sublist equals the admitted input sublist). -/
theorem filter_for_people_spec (p : Nat) (hp : 1 ≤ p) (listings : List Listing) :
    (∀ it, it ∈ filter_for_people listings p ↔
        (it ∈ listings ∧
         (∃ pr, it.price = some pr ∧ pr ≤ BASE_BUDGET * p) ∧
         it.furnished = true ∧
         (p = 1 → ∀ b, it.bedrooms = some b → b ≤ 1) ∧
         (2 ≤ p → ∀ b, it.bedrooms = some b → 2 ≤ b))) ∧
    (filter_for_people listings p).Pairwise
      (fun a b => ∀ pa pb, a.price = some pa → b.price = some pb → pa ≤ pb) ∧
    (∀ c, (filter_for_people listings p).filter (fun it => priceKey it == c) =
        (listings.filter (admits p)).filter (fun it => priceKey it == c)) := by
  refine ⟨?_, ?_, ?_⟩
  · intro it
    rw [filter_for_people, List.mem_mergeSort, List.mem_filter, admits_iff p hp it]
  · have hs : (filter_for_people listings p).Pairwise (fun a b => priceLe a b) :=
      List.sorted_mergeSort priceLe_trans priceLe_total (listings.filter (admits p))
    refine hs.imp ?_
    intro a b hab pa pb hpa hpb
    have := decide_eq_true_eq.mp hab
    simpa [priceKey, hpa, hpb] using this
  · intro c
    have hsubl :
        List.Sublist
          ((listings.filter (admits p)).filter (fun it => priceKey it == c))
          (filter_for_people listings p) := by
      apply List.sublist_mergeSort priceLe_trans priceLe_total
      · apply List.pairwise_of_forall_mem_list
        intro a ha b hb
        have hac := (List.mem_filter.mp ha).2
        have hbc := (List.mem_filter.mp hb).2
        have hac' : priceKey a = c := by simpa using hac
        have hbc' : priceKey b = c := by simpa using hbc
        simp [priceLe, hac', hbc']
      · exact List.filter_sublist _
    have hsubf :
        List.Sublist
          ((listings.filter (admits p)).filter (fun it => priceKey it == c))
          ((filter_for_people listings p).filter (fun it => priceKey it == c)) := by
      have h2 := hsubl.filter (fun it => priceKey it == c)
      simpa [List.filter_filter] using h2
    have hperm :
        List.Perm
          ((filter_for_people listings p).filter (fun it => priceKey it == c))
          ((listings.filter (admits p)).filter (fun it => priceKey it == c)) :=
      (List.mergeSort_perm (listings.filter (admits p)) priceLe).filter _
    exact (hsubf.eq_of_length hperm.length_eq.symm).symm

/-- The boundary Listing of the spec: price exactly `BASE_BUDGET × 2`. -/
def L1800 : Listing :=
  { title := "b", price := some 1800, url := "u", furnished := true,
    bedrooms := some 2, source := "S" }

/-- Witness for C1: at `p = 2` the boundary price 1800 is admitted, through
`filter_for_people_spec`. -/
theorem filter_for_people_spec_witness :
    1 ≤ 2 ∧ L1800 ∈ filter_for_people [L1800] 2 :=
  ⟨by decide,
   ((filter_for_people_spec 2 (by decide) [L1800]).1 L1800).mpr
     ⟨by simp, ⟨1800, rfl, by norm_num [BASE_BUDGET]⟩, rfl,
      by simp,
      by rintro - b hb; simp [L1800] at hb; omega⟩⟩

/-- C9: for every run and group, every admitted-and-unseen Listing the Dedup
Engine returns has its key recorded in the saved store, including Listings
ranked beyond `TOP_RESULTS`; a Listing ranked beyond the cap is not in this
run's notification selection, and in any later run against a store extending
the saved one it is neither returned nor notified for this group again. -/
theorem recorded_beyond_cap (listings : List Listing) (p : Nat) (store : Finset String) :
    (∀ it ∈ (remove_seen (filter_for_people listings p) p store).1,
        mkKey p it ∈ (remove_seen (filter_for_people listings p) p store).2) ∧
    (∀ (i : Nat) (it : Listing), TOP_RESULTS ≤ i →
        ((remove_seen (filter_for_people listings p) p store).1)[i]? = some it →
        it ∉ notifiedItems (remove_seen (filter_for_people listings p) p store).1 ∧
        ∀ (store2 : Finset String) (future : List Listing),
          (remove_seen (filter_for_people listings p) p store).2 ⊆ store2 →
          (it ∉ (remove_seen future p store2).1 ∧
           it ∉ notifiedItems (remove_seen future p store2).1)) := by
  constructor
  · intro it hit
    have hmem := (remove_seen_kept_mem (filter_for_people listings p) p store it hit).1
    rw [remove_seen_saved_store]
    apply Finset.mem_union_right
    rw [List.mem_toFinset]
    exact List.mem_map_of_mem (mkKey p) hmem
  · intro i it hi hget
    obtain ⟨hilt, hie⟩ := List.getElem?_eq_some_iff.mp hget
    have hnd : ((remove_seen (filter_for_people listings p) p store).1).Nodup :=
      (remove_seen_keys_nodup (filter_for_people listings p) p store).of_map _
    constructor
    · intro hmem
      rw [notifiedItems] at hmem
      obtain ⟨j, hjlt, hje⟩ := List.getElem_of_mem hmem
      have hjlt' : j < TOP_RESULTS := by
        have := hjlt
        rw [List.length_take] at this
        omega
      rw [List.getElem_take] at hje
      have hij : j = i := hnd.getElem_inj_iff.mp (by rw [hje, hie])
      omega
    · intro store2 future hsub
      have hkey : mkKey p it ∈ store2 := by
        apply hsub
        rw [remove_seen_saved_store]
        apply Finset.mem_union_right
        rw [List.mem_toFinset]
        exact List.mem_map_of_mem (mkKey p)
          (remove_seen_kept_mem _ p store it (hie ▸ List.getElem_mem hilt)).1
      have hnot : it ∉ (remove_seen future p store2).1 := fun hmem =>
        (remove_seen_kept_mem future p store2 it hmem).2 hkey
      exact ⟨hnot, fun hmem => hnot (List.take_subset _ _ hmem)⟩

/-- Six admitted listings for a 1-person group, already in ascending price
order, with pairwise-distinct urls. -/
def W9 : List Listing :=
  [{ title := "a1", price := some 100, url := "u1", furnished := true,
     bedrooms := none, source := "S" },
   { title := "a2", price := some 200, url := "u2", furnished := true,
     bedrooms := none, source := "S" },
   { title := "a3", price := some 300, url := "u3", furnished := true,
     bedrooms := none, source := "S" },
   { title := "a4", price := some 400, url := "u4", furnished := true,
     bedrooms := none, source := "S" },
   { title := "a5", price := some 500, url := "u5", furnished := true,
     bedrooms := none, source := "S" },
   { title := "a6", price := some 600, url := "u6", furnished := true,
     bedrooms := none, source := "S" }]

/-- The sixth-ranked listing of `W9`. -/
def it6 : Listing :=
  { title := "a6", price := some 600, url := "u6", furnished := true,
    bedrooms := none, source := "S" }

/-- The group filter passes `W9` through unchanged: every item is admitted
and the list is already sorted. -/
theorem W9_filter_eq : filter_for_people W9 1 = W9 := by
  have h1 : W9.filter (admits 1) = W9 := by decide
  rw [filter_for_people, h1]
  exact List.mergeSort_of_sorted (by decide)

/-- Witness for C9: in a six-match run for group 1 the sixth item is outside
the notification selection, yet its key is recorded, and a later run against
the saved store never returns it again — through `recorded_beyond_cap`. -/
theorem recorded_beyond_cap_witness :
    TOP_RESULTS ≤ 5 ∧
    it6 ∉ notifiedItems (remove_seen (filter_for_people W9 1) 1 ∅).1 ∧
    mkKey 1 it6 ∈ (remove_seen (filter_for_people W9 1) 1 ∅).2 ∧
    it6 ∉ (remove_seen [it6] 1 (remove_seen (filter_for_people W9 1) 1 ∅).2).1 := by
  have h := recorded_beyond_cap W9 1 ∅
  have hget : ((remove_seen (filter_for_people W9 1) 1 ∅).1)[5]? = some it6 := by
    rw [W9_filter_eq]
    decide
  obtain ⟨hnot, hfut⟩ := h.2 5 it6 (by decide) hget
  exact ⟨by decide, hnot, h.1 it6 (List.getElem?_mem hget),
    (hfut _ [it6] (Finset.Subset.refl _)).1⟩
